import Mathlib

/-!
Shallow embedding of the AutoPapers pipeline
(`auto_download_papers.py`, `pdf2markdown.py`, `call_llm_summaries.py`,
`push2cubox.py`).

External effects (HTTP requests, the LLM, the PDF parser, the file system)
are modelled as explicit inputs: the file system is a list of existing
paths, each network call or parser invocation is an oracle value supplied
to the function, and fallible library calls are modelled by outcome types.
Counters, file writes and log lines are threaded through explicit state.
-/

set_option linter.unusedVariables false

namespace AutoPapers

/-- Python substring test `needle in hay`, on strings viewed as char lists. -/
def strContains (hay needle : String) : Bool :=
  (List.range (hay.length + 1)).any (fun i => needle.toList.isPrefixOf (hay.toList.drop i))

/-- Python `str.lower()`: character-wise lowercasing. -/
def toLowerStr (s : String) : String := String.mk (s.data.map Char.toLower)

/-- Python `str.endswith(pat)`. -/
def endsWithStr (s pat : String) : Bool := pat.data.isSuffixOf s.data

/-- Split a character list at every occurrence of `sep`. -/
def splitCharAux (sep : Char) : List Char → List (List Char)
  | [] => [[]]
  | c :: cs =>
      match splitCharAux sep cs with
      | [] => []
      | g :: gs => if c = sep then [] :: g :: gs else (c :: g) :: gs

/-- Python `str.split(sep)` for a one-character separator. -/
def splitOnChar (sep : Char) (s : String) : List String :=
  (splitCharAux sep s.data).map String.mk

/-- `os.path.join dir f` for the simple two-component case used throughout. -/
def joinPath (dir f : String) : String := dir ++ "/" ++ f

/-! ## auto_download_papers.py -/

/-- The character class of `re.sub(r'[\\/*?:"<>|]', "_", filename)`. -/
def specialChars : List Char := ['\\', '/', '*', '?', ':', '"', '<', '>', '|']

/-- `sanitize_filename`: `re.sub` with a single-character class replaces each
matching character independently, so it is a character-wise map. -/
def sanitize_filename (filename : String) : String :=
  String.mk (filename.data.map (fun c => if specialChars.contains c then '_' else c))

def QUERY : String := "ICLR+2024"

def MAX_RESULTS : Nat := 1000

def OUTPUT_DIR : String := "/data/lyc/papers/ICLR_2024/pdf"

/-- One record of the catalog response, after the `info.get` accesses with
their defaults (`"Unknown_Title"`, `""`, `""`) have been applied.
`ee_netloc` is `urlparse(ee).netloc`, a pure library computation on `ee`
modelled as given data. -/
structure PaperInfo where
  title : String
  ptype : String
  ee : String
  ee_netloc : String
deriving DecidableEq

/-- Outcome of the whole `requests.get`-and-parse body of `fetch_papers`:
either the parsed hit list, or any exception. -/
inductive FetchResponse where
  | ok (hits : List PaperInfo)
  | err
deriving DecidableEq

/-- `fetch_papers`: an exception anywhere in the request is caught and
reported as the empty page. -/
def fetch_papers (r : FetchResponse) : List PaperInfo :=
  match r with
  | .ok hits => hits
  | .err => []

/-- Outcome of the PDF `requests.get` + `raise_for_status` + file write for
one paper: success, or any exception. -/
inductive FetchOutcome where
  | ok
  | err
deriving DecidableEq

/-- Mutable state touched by `download_pdf`: the file system (existing
paths), the two global counters, and the printed error lines. -/
structure DownloadState where
  files : List String
  success_count : Nat
  failure_count : Nat
  log : List String
deriving DecidableEq

/-- Result of one `download_pdf` call: the new state, plus whether the PDF
HTTP GET was actually issued. -/
structure DownloadStep where
  state : DownloadState
  fetched : Bool
deriving DecidableEq

/-- The canonical path `os.path.join(OUTPUT_DIR, f"{sanitized_title}.pdf")`. -/
def targetPath (title : String) : String :=
  joinPath OUTPUT_DIR (sanitize_filename title ++ ".pdf")

/-- `download_pdf`, with the network GET outcome supplied as `fetch`. -/
def download_pdf (paper : PaperInfo) (fetch : FetchOutcome) (s : DownloadState) : DownloadStep :=
  -- Skip papers that are not "Conference and Workshop Papers"
  if paper.ptype ≠ "Conference and Workshop Papers" ∨ paper.ee = "" then
    ⟨s, false⟩
  else if strContains paper.ee_netloc "openreview.net" = false then
    ⟨s, false⟩
  else
    let pdf_url := paper.ee.replace "/forum?id=" "/pdf?id="
    let filename := targetPath paper.title
    -- Skip if the file already exists
    if s.files.contains filename then
      ⟨{ s with success_count := s.success_count + 1 }, false⟩
    else
      match fetch with
      | .ok =>
          ⟨{ s with files := filename :: s.files,
                    success_count := s.success_count + 1 }, true⟩
      | .err =>
          ⟨{ s with failure_count := s.failure_count + 1,
                    log := ("Error downloading paper " ++ paper.title) :: s.log }, true⟩

/-- The sequential download loop of `main` over the materialized paper
list (the thread-pool variant runs the same per-item function). -/
def download_batch (papers : List PaperInfo) (fetch : PaperInfo → FetchOutcome)
    (s : DownloadState) : DownloadState :=
  papers.foldl (fun st p => (download_pdf p (fetch p) st).state) s

/-- Eligibility filter of `download_pdf` (the conditions under which the
function proceeds past its two silent early returns). -/
def eligiblePaper (p : PaperInfo) : Prop :=
  p.ptype = "Conference and Workshop Papers" ∧ p.ee ≠ "" ∧
    strContains p.ee_netloc "openreview.net" = true

instance (p : PaperInfo) : Decidable (eligiblePaper p) := by
  unfold eligiblePaper; infer_instance

/-- The pagination loop of `main`: request offset 0, then keep adding
`MAX_RESULTS`; stop on an empty page (before appending) or a short page
(after appending).  `pages` gives the remote response at each offset,
`fuel` bounds the recursion.  Returns the accumulated papers and the list
of offsets actually requested. -/
def main_fetch_loop (pages : Nat → FetchResponse) : Nat → Nat → List PaperInfo × List Nat
  | 0, _ => ([], [])
  | fuel + 1, start_index =>
      let papers := fetch_papers (pages start_index)
      if papers.length = 0 then ([], [start_index])
      else if papers.length < MAX_RESULTS then (papers, [start_index])
      else
        let rest := main_fetch_loop pages fuel (start_index + MAX_RESULTS)
        (papers ++ rest.1, start_index :: rest.2)

/-! ## pdf2markdown.py -/

/-- Result of `convert_pdf_to_md`: whether some attempt succeeded, how many
attempts were actually invoked, and the resulting file system. -/
structure ConvertResult where
  success : Bool
  attemptsMade : Nat
  files : List String
deriving DecidableEq

/-- `os.path.basename` for POSIX paths. -/
def baseName (p : String) : String := (splitOnChar '/' p).getLastD p

/-- The root part of `os.path.splitext` for ordinary `name.ext` names
(the hidden-file special case does not arise for `Title.pdf` names). -/
def splitextRoot (f : String) : String :=
  match splitOnChar '.' f with
  | [] => f
  | [_] => f
  | parts => String.intercalate "." parts.dropLast

/-- The `for attempt in range(max_retries)` retry loop: `attempt i` tells
whether the i-th try of the read-classify-convert-dump body succeeds
(exceptions are caught and the loop continues).  On the first success the
Markdown file is written and the function returns. -/
def convert_loop (mdPath : String) (attempt : Nat → Bool) :
    Nat → Nat → List String → ConvertResult
  | 0, _, fs => ⟨false, 0, fs⟩
  | fuel + 1, i, fs =>
      if attempt i then ⟨true, 1, mdPath :: fs⟩
      else
        let r := convert_loop mdPath attempt fuel (i + 1) fs
        ⟨r.success, r.attemptsMade + 1, r.files⟩

/-- `convert_pdf_to_md`.  Note: the source performs no existence check on
the output Markdown path — the file system `files` is consulted nowhere
before the attempts begin. -/
def convert_pdf_to_md (files : List String) (pdf_path md_output_dir : String)
    (attempt : Nat → Bool) (max_retries : Nat) : ConvertResult :=
  let pdf_file_name := baseName pdf_path
  let name_without_suff := splitextRoot pdf_file_name
  let mdPath := joinPath md_output_dir (name_without_suff ++ ".md")
  convert_loop mdPath attempt max_retries 0 files

/-! ## call_llm_summaries.py -/

/-- Outcome of the per-file `try` body of `summarize_markdown_files`:
an exception (caught and logged), `call_llm` returning `None`, or a
generated summary. -/
inductive SummarizeOutcome where
  | exn
  | llmFail
  | ok (summary : String)
deriving DecidableEq

/-- Result of handling one Markdown file: the file system afterwards, and
whether the summarization body (file read + LLM call) was invoked. -/
structure SummarizeStep where
  files : List String
  invoked : Bool
deriving DecidableEq

/-- The body of the `for idx, md_file in enumerate(md_files)` loop for one
file: skip silently when the output already exists, otherwise run the
body; only a successful summary writes the output file. -/
def summarize_one (files : List String) (output_folder md_file : String)
    (outcome : SummarizeOutcome) : SummarizeStep :=
  let output_path := joinPath output_folder md_file
  if files.contains output_path then ⟨files, false⟩
  else
    match outcome with
    | .ok _ => ⟨output_path :: files, true⟩
    | .llmFail => ⟨files, true⟩
    | .exn => ⟨files, true⟩

/-! ## push2cubox.py -/

def SUMMARIES_FOLDER : String := "/data/lyc/papers/ICLR_2024/sum"

def MAX_CONTENT_LENGTH : Nat := 3000

def KEYWORDS : List String := ["large language model", "agent", "medical", "clinical"]

/-- `load_processed_files`: the ledger file's parsed content when it
exists (`some names`), or `none` when the file is absent. -/
def load_processed_files (ledger : Option (List String)) : List String :=
  match ledger with
  | some names => names
  | none => []

/-- Score of one file in `get_priority_files`: the number of keywords
whose lowercase form occurs in the lowercased content (each keyword in the
list contributes at most one, via the substring test `in`). -/
def fileScore (keywords : List String) (content : String) : Nat :=
  keywords.countP (fun keyword => strContains (toLowerStr content) (toLowerStr keyword))

/-- Insert `a` into a descending-sorted list, after every element of
strictly greater score: this is the insertion step of a stable descending
sort, the behaviour of Python's `sorted(key=..., reverse=True)`. -/
def insertScoreDesc (score : String → Nat) (a : String) : List String → List String
  | [] => [a]
  | b :: l =>
      if score a < score b then b :: insertScoreDesc score a l
      else a :: b :: l

/-- Stable descending sort by `score`: the model of
`sorted(unprocessed_files, key=lambda x: keyword_priority[x], reverse=True)`
(Python's `sorted` is a stable sort). -/
def sortScoreDesc (score : String → Nat) (l : List String) : List String :=
  l.foldr (insertScoreDesc score) []

/-- The unprocessed candidates: directory entries ending in `.md` that are
not in the processed set, in listing order. -/
def unprocessedOf (listing processed : List String) : List String :=
  (listing.filter (fun f => endsWithStr f ".md")).filter (fun f => !processed.contains f)

/-- `get_priority_files`.  `listing` is `os.listdir(folder)`; `read` gives
the content of a path on disk. -/
def get_priority_files (folder : String) (listing : List String) (read : String → String)
    (processed : List String) (n : Nat) (keywords : List String) : List String :=
  let unprocessed_files := unprocessedOf listing processed
  if unprocessed_files.length = 0 then []
  else
    let score := fun f => fileScore keywords (read (joinPath folder f))
    (sortScoreDesc score unprocessed_files).take n

/-- Outcome of the `requests.post` + `response.json()` inside `call_api`:
a response with HTTP status and the optional application-level `code`
field of the JSON body, or any exception. -/
inductive ApiOutcome where
  | resp (status : Nat) (code : Option Int)
  | exn
deriving DecidableEq

/-- `call_api`: builds the payload (content truncated to
`MAX_CONTENT_LENGTH`), then succeeds exactly when the HTTP status is 200
and the body's `code` is 200; an exception yields failure. -/
def call_api (content : String) (outcome : ApiOutcome) : Bool :=
  let payload_content := content.take MAX_CONTENT_LENGTH
  match outcome with
  | .resp status code => status == 200 && code == some 200
  | .exn => false

/-- `process_files`: load the ledger, select priority files, call the API
on each, add a name exactly on a `True` return, and save once at the end.
Returns `none` when the early `return` on an empty priority list skips the
save, `some finalSet` when `save_processed_files` is reached. -/
def process_files (ledger : Option (List String)) (listing : List String)
    (read : String → String) (resp : String → ApiOutcome) (n : Nat) :
    Option (List String) :=
  let processed_files := load_processed_files ledger
  let priority_files := get_priority_files SUMMARIES_FOLDER listing read processed_files n KEYWORDS
  if priority_files = [] then none
  else
    some (priority_files.foldl
      (fun acc file_name =>
        if call_api (read (joinPath SUMMARIES_FOLDER file_name)) (resp file_name)
        then acc.insert file_name else acc)
      processed_files)

/-! ## Concrete fixtures used to instantiate the theorems -/

/-- A read oracle under which `A.md` matches two keywords, `B.md` none and
`C.md` one. -/
def exampleRead : String → String :=
  fun p => if p = joinPath "d" "A.md" then "k1 xx k2"
           else if p = joinPath "d" "C.md" then "k1" else "nothing"

/-- An eligible catalog record. -/
def paperW : PaperInfo :=
  ⟨"T", "Conference and Workshop Papers", "https://openreview.net/forum?id=x", "openreview.net"⟩

/-- A record whose type is not a conference paper. -/
def badPaperW : PaperInfo := ⟨"B", "Informal Publications", "", ""⟩

/-- The empty download state. -/
def s0 : DownloadState := ⟨[], 0, 0, []⟩

/-- A download state in which paper `T`'s canonical output already exists. -/
def sHasT : DownloadState := ⟨[targetPath "T"], 0, 0, []⟩

/-- A file system in which the canonical Markdown output of `paperA.pdf`
already exists. -/
def mdFilesW : List String := ["/data/lyc/papers/ICLR_2024/md/paperA.md"]

/-- A catalog with one full page at offset 0 and nothing afterwards. -/
def pagesW : Nat → FetchResponse :=
  fun i => if i = 0 then .ok (List.replicate 1000 ⟨"t", "c", "e", "n"⟩) else .ok []

/-! ## Helper lemmas on the stable descending sort -/

theorem mem_insertScoreDesc (score : String → Nat) (a x : String) (l : List String) :
    x ∈ insertScoreDesc score a l ↔ x = a ∨ x ∈ l := by
  induction l with
  | nil => simp [insertScoreDesc]
  | cons b l ih =>
      unfold insertScoreDesc
      by_cases h : score a < score b
      · simp only [if_pos h, List.mem_cons, ih]
        tauto
      · simp only [if_neg h, List.mem_cons]

theorem length_insertScoreDesc (score : String → Nat) (a : String) (l : List String) :
    (insertScoreDesc score a l).length = l.length + 1 := by
  induction l with
  | nil => rfl
  | cons b l ih =>
      unfold insertScoreDesc
      by_cases h : score a < score b
      · simp [if_pos h, ih]
      · simp [if_neg h]

theorem length_sortScoreDesc (score : String → Nat) (l : List String) :
    (sortScoreDesc score l).length = l.length := by
  induction l with
  | nil => rfl
  | cons b l ih =>
      show (insertScoreDesc score b (sortScoreDesc score l)).length = l.length + 1
      rw [length_insertScoreDesc, ih]

theorem pairwise_insertScoreDesc (score : String → Nat) (a : String) (l : List String)
    (h : l.Pairwise (fun x y => score y ≤ score x)) :
    (insertScoreDesc score a l).Pairwise (fun x y => score y ≤ score x) := by
  induction l with
  | nil => simp [insertScoreDesc]
  | cons b l ih =>
      rw [List.pairwise_cons] at h
      unfold insertScoreDesc
      by_cases hab : score a < score b
      · rw [if_pos hab, List.pairwise_cons]
        refine ⟨fun x hx => ?_, ih h.2⟩
        rcases (mem_insertScoreDesc score a x l).1 hx with rfl | hxl
        · exact le_of_lt hab
        · exact h.1 x hxl
      · rw [if_neg hab, List.pairwise_cons]
        refine ⟨fun x hx => ?_, List.Pairwise.cons h.1 h.2⟩
        rcases List.mem_cons.1 hx with rfl | hxl
        · exact le_of_not_lt hab
        · exact le_trans (h.1 x hxl) (le_of_not_lt hab)

theorem pairwise_sortScoreDesc (score : String → Nat) (l : List String) :
    (sortScoreDesc score l).Pairwise (fun x y => score y ≤ score x) := by
  induction l with
  | nil => simp [sortScoreDesc]
  | cons b l ih => exact pairwise_insertScoreDesc score b (sortScoreDesc score l) ih

theorem filter_insertScoreDesc (score : String → Nat) (s : Nat) (a : String) (l : List String) :
    (insertScoreDesc score a l).filter (fun x => score x == s)
      = if score a = s then a :: l.filter (fun x => score x == s)
        else l.filter (fun x => score x == s) := by
  induction l with
  | nil =>
      by_cases h : score a = s <;> simp [insertScoreDesc, h]
  | cons b l ih =>
      unfold insertScoreDesc
      by_cases hab : score a < score b
      · rw [if_pos hab]
        by_cases has : score a = s
        · have hbs : ¬ score b = s := by omega
          rw [if_pos has]
          simp [List.filter_cons, hbs, ih, has]
        · rw [if_neg has]
          by_cases hbs : score b = s <;> simp [List.filter_cons, hbs, ih, has]
      · rw [if_neg hab]
        by_cases has : score a = s <;>
          by_cases hbs : score b = s <;> simp [List.filter_cons, has, hbs]

theorem filter_sortScoreDesc (score : String → Nat) (s : Nat) (l : List String) :
    (sortScoreDesc score l).filter (fun x => score x == s)
      = l.filter (fun x => score x == s) := by
  induction l with
  | nil => rfl
  | cons b l ih =>
      show (insertScoreDesc score b (sortScoreDesc score l)).filter _ = _
      rw [filter_insertScoreDesc]
      by_cases h : score b = s <;> simp [List.filter_cons, h, ih]

theorem filter_take_prefix {α : Type} (p : α → Bool) (l : List α) (n : Nat) :
    (l.take n).filter p <+: l.filter p := by
  conv_rhs => rw [← List.take_append_drop n l]
  rw [List.filter_append]
  exact List.prefix_append _ _

theorem mem_sortScoreDesc (score : String → Nat) (x : String) (l : List String) :
    x ∈ sortScoreDesc score l ↔ x ∈ l := by
  induction l with
  | nil => simp [sortScoreDesc]
  | cons b l ih =>
      show x ∈ insertScoreDesc score b (sortScoreDesc score l) ↔ _
      rw [mem_insertScoreDesc, ih, List.mem_cons]

theorem take_score_ge (score : String → Nat) (l : List String) (n : Nat) (a b : String)
    (ha : a ∈ (sortScoreDesc score l).take n) (hb : b ∈ l)
    (hbn : b ∉ (sortScoreDesc score l).take n) : score b ≤ score a := by
  have hbs : b ∈ sortScoreDesc score l := (mem_sortScoreDesc score b l).2 hb
  have hpw := pairwise_sortScoreDesc score l
  rw [← List.take_append_drop n (sortScoreDesc score l), List.pairwise_append] at hpw
  have hbd : b ∈ (sortScoreDesc score l).drop n := by
    rcases List.mem_append.1
      ((List.take_append_drop n (sortScoreDesc score l)).symm ▸ hbs) with h | h
    · exact absurd h hbn
    · exact h
  exact hpw.2.2 a ha b hbd

/-! ## Claim theorems -/

/-- C6: the Priority Selector scores every unprocessed candidate by the
case-insensitive keyword matches in its content and returns the top N in
descending score order: the result is sorted by descending score,
candidates of equal score keep the original enumeration order (each
equal-score group of the result is a prefix of that group in the
unprocessed list), and every selected candidate scores at least as high
as every unselected unprocessed candidate; on candidates A (2 matches),
B (0), C (1) with N = 2 it returns [A, C]. -/
theorem C6_priority_selector :
    (∀ (folder : String) (listing : List String) (read : String → String)
        (processed : List String) (n : Nat) (keywords : List String),
      ((get_priority_files folder listing read processed n keywords).Pairwise
        (fun a b => fileScore keywords (read (joinPath folder b))
                      ≤ fileScore keywords (read (joinPath folder a)))) ∧
      (∀ s : Nat,
        (get_priority_files folder listing read processed n keywords).filter
            (fun f => fileScore keywords (read (joinPath folder f)) == s)
          <+: (unprocessedOf listing processed).filter
            (fun f => fileScore keywords (read (joinPath folder f)) == s)) ∧
      (∀ a ∈ get_priority_files folder listing read processed n keywords,
        ∀ b ∈ unprocessedOf listing processed,
          b ∉ get_priority_files folder listing read processed n keywords →
          fileScore keywords (read (joinPath folder b))
            ≤ fileScore keywords (read (joinPath folder a)))) ∧
    get_priority_files "d" ["A.md", "B.md", "C.md"] exampleRead [] 2 ["k1", "k2"]
      = ["A.md", "C.md"] := by
  refine ⟨fun folder listing read processed n keywords => ?_, by decide⟩
  unfold get_priority_files
  by_cases h : (unprocessedOf listing processed).length = 0
  · simp [h, List.nil_prefix]
  · rw [if_neg h]
    refine ⟨?_, ?_, ?_⟩
    · exact List.Pairwise.sublist (List.take_sublist n _)
        (pairwise_sortScoreDesc _ (unprocessedOf listing processed))
    · intro s
      have hp := filter_take_prefix
        (fun f => fileScore keywords (read (joinPath folder f)) == s)
        (sortScoreDesc (fun f => fileScore keywords (read (joinPath folder f)))
          (unprocessedOf listing processed)) n
      rwa [filter_sortScoreDesc] at hp
    · intro a ha b hb hbn
      exact take_score_ge (fun f => fileScore keywords (read (joinPath folder f)))
        (unprocessedOf listing processed) n a b ha hb hbn

/-- Witness for C6 at a concrete selector run: the example result, and the
unselected B.md scoring no higher than the selected A.md. -/
theorem C6_priority_selector_witness :
    get_priority_files "d" ["A.md", "B.md", "C.md"] exampleRead [] 2 ["k1", "k2"]
      = ["A.md", "C.md"] ∧
    fileScore ["k1", "k2"] (exampleRead (joinPath "d" "B.md"))
      ≤ fileScore ["k1", "k2"] (exampleRead (joinPath "d" "A.md")) :=
  ⟨C6_priority_selector.2,
   (C6_priority_selector.1 "d" ["A.md", "B.md", "C.md"] exampleRead [] 2 ["k1", "k2"]).2.2
     "A.md" (by decide) "B.md" (by decide) (by decide)⟩

/-- C7: the selector always returns exactly min(N, number of unprocessed
candidates) items; zero-score candidates fill the remainder when fewer
than N candidates score positively. -/
theorem C7_selector_count (folder : String) (listing : List String) (read : String → String)
    (processed : List String) (n : Nat) (keywords : List String) :
    (get_priority_files folder listing read processed n keywords).length
      = min n (unprocessedOf listing processed).length := by
  unfold get_priority_files
  by_cases h : (unprocessedOf listing processed).length = 0
  · simp [h]
  · rw [if_neg h]
    rw [List.length_take, length_sortScoreDesc]

/-- Witness for C7: 3 unprocessed candidates and N = 5 yield 3 items. -/
theorem C7_selector_count_witness :
    (get_priority_files "d" ["A.md", "B.md", "C.md"] exampleRead [] 5 ["k1", "k2"]).length
      = min 5 (unprocessedOf ["A.md", "B.md", "C.md"] []).length :=
  C7_selector_count "d" ["A.md", "B.md", "C.md"] exampleRead [] 5 ["k1", "k2"]

/-- C8: `sanitize_filename` keeps the length, maps each of the nine
special characters to an underscore and every other character to itself
(position by position), leaves no special character in its output, and is
a pure function of its input. -/
theorem C8_sanitize_filename (s : String) :
    (sanitize_filename s).length = s.length ∧
    (∀ i : Nat, (sanitize_filename s).data[i]? =
        (s.data[i]?).map (fun c => if specialChars.contains c then '_' else c)) ∧
    (∀ c ∈ (sanitize_filename s).data, specialChars.contains c = false) ∧
    (∀ t : String, t = s → sanitize_filename t = sanitize_filename s) := by
  refine ⟨?_, ?_, ?_, ?_⟩
  · show (String.mk (s.data.map _)).data.length = s.data.length
    rw [List.length_map]
  · intro i
    show (s.data.map _)[i]? = _
    rw [List.getElem?_map]
  · intro c hc
    have hmem : c ∈ s.data.map (fun c => if specialChars.contains c then '_' else c) := hc
    obtain ⟨a, _, rfl⟩ := List.mem_map.1 hmem
    by_cases h : specialChars.contains a
    · rw [if_pos h]
      decide
    · rw [if_neg h]
      simpa using h
  · intro t ht
    rw [ht]

/-- Witness for C8 on the title `a|b`. -/
theorem C8_sanitize_filename_witness :
    (sanitize_filename "a|b").length = ("a|b" : String).length ∧
    (sanitize_filename "a|b").data[1]? = some '_' ∧
    specialChars.contains '_' = false := by
  refine ⟨(C8_sanitize_filename "a|b").1,
    ((C8_sanitize_filename "a|b").2.1 1).trans (by decide),
    (C8_sanitize_filename "a|b").2.2.1 '_' (by decide)⟩

/-- C9: a missing ledger file loads as the empty processed set, so every
`.md` candidate in the listing counts as unprocessed. -/
theorem C9_missing_ledger :
    load_processed_files none = [] ∧
    ∀ listing : List String,
      unprocessedOf listing (load_processed_files none)
        = listing.filter (fun f => endsWithStr f ".md") := by
  refine ⟨rfl, fun listing => ?_⟩
  simp [load_processed_files, unprocessedOf]

/-- Witness for C9 on a two-entry listing. -/
theorem C9_missing_ledger_witness :
    unprocessedOf ["a.md", "b.txt"] (load_processed_files none) = ["a.md"] := by
  rw [C9_missing_ledger.2 ["a.md", "b.txt"]]
  decide

/-- C10: a candidate that is not a conference paper, has no external link,
or whose link host is not openreview.net is skipped silently:
`download_pdf` performs no fetch and leaves the whole state (files,
counters, log) unchanged. -/
theorem C10_ineligible_skipped (p : PaperInfo) (fetch : FetchOutcome) (s : DownloadState)
    (h : p.ptype ≠ "Conference and Workshop Papers" ∨ p.ee = "" ∨
         strContains p.ee_netloc "openreview.net" = false) :
    download_pdf p fetch s = ⟨s, false⟩ := by
  unfold download_pdf
  by_cases h1 : p.ptype ≠ "Conference and Workshop Papers" ∨ p.ee = ""
  · rw [if_pos h1]
  · rw [if_neg h1]
    have h3 : strContains p.ee_netloc "openreview.net" = false := by
      rcases h with h | h | h
      · exact absurd (Or.inl h) h1
      · exact absurd (Or.inr h) h1
      · exact h
    rw [if_pos h3]

/-- Witness for C10: a one-candidate batch of an ineligible record ends
with success + failure = 0, strictly below the candidate total 1. -/
theorem C10_ineligible_skipped_witness :
    download_pdf badPaperW FetchOutcome.ok s0 = ⟨s0, false⟩ ∧
    (download_batch [badPaperW] (fun _ => FetchOutcome.ok) s0).success_count
      + (download_batch [badPaperW] (fun _ => FetchOutcome.ok) s0).failure_count = 0 := by
  have h := C10_ineligible_skipped badPaperW FetchOutcome.ok s0 (Or.inl (by decide))
  refine ⟨h, ?_⟩
  show ((download_pdf badPaperW FetchOutcome.ok s0).state).success_count
    + ((download_pdf badPaperW FetchOutcome.ok s0).state).failure_count = 0
  rw [h]
  rfl

/-- C1 counterexample: the claim fails for the convert stage.  The
canonical output `/data/lyc/papers/ICLR_2024/md/paperA.md` of
`paperA.pdf` already exists in the file system, yet `convert_pdf_to_md`
still invokes the per-item conversion action (one attempt is made):
the source has no output-existence check. -/
theorem C1_skip_counterexample :
    "/data/lyc/papers/ICLR_2024/md/paperA.md" ∈ mdFilesW ∧
    (convert_pdf_to_md mdFilesW "/data/lyc/papers/ICLR_2024/pdf/paperA.pdf"
        "/data/lyc/papers/ICLR_2024/md" (fun _ => true) 3).attemptsMade = 1 := by
  decide

/-- C1 amended: for the download stage an existing canonical output means
the action is not re-invoked and the item is counted as a success; for the
summarize stage an existing output means the action is not re-invoked
(that stage keeps no counters); the convert stage performs no existence
check and always invokes the action at least once. -/
theorem C1_amended_skip :
    (∀ (p : PaperInfo) (fetch : FetchOutcome) (s : DownloadState),
      eligiblePaper p → s.files.contains (targetPath p.title) = true →
      download_pdf p fetch s
        = ⟨{ s with success_count := s.success_count + 1 }, false⟩) ∧
    (∀ (files : List String) (out md : String) (outcome : SummarizeOutcome),
      files.contains (joinPath out md) = true →
      summarize_one files out md outcome = ⟨files, false⟩) ∧
    (∀ (files : List String) (pdf_path md_dir : String) (attempt : Nat → Bool),
      1 ≤ (convert_pdf_to_md files pdf_path md_dir attempt 3).attemptsMade) := by
  refine ⟨?_, ?_, ?_⟩
  · intro p fetch s hp hf
    obtain ⟨h1, h2, h3⟩ := hp
    unfold download_pdf
    rw [if_neg (by simp [h1, h2]), if_neg (by simp [h3]), if_pos hf]
  · intro files out md outcome hf
    unfold summarize_one
    rw [if_pos hf]
  · intro files pdf_path md_dir attempt
    unfold convert_pdf_to_md convert_loop
    by_cases h : attempt 0 <;> simp [h]

/-- Witness for the amended C1 at concrete states. -/
theorem C1_amended_skip_witness :
    download_pdf paperW FetchOutcome.ok sHasT
      = ⟨{ sHasT with success_count := 1 }, false⟩ ∧
    summarize_one ["sum/a.md"] "sum" "a.md" SummarizeOutcome.exn = ⟨["sum/a.md"], false⟩ ∧
    1 ≤ (convert_pdf_to_md mdFilesW "paperA.pdf" "md" (fun _ => false) 3).attemptsMade :=
  ⟨C1_amended_skip.1 paperW FetchOutcome.ok sHasT (by decide) (by decide),
   C1_amended_skip.2.1 ["sum/a.md"] "sum" "a.md" SummarizeOutcome.exn (by decide),
   C1_amended_skip.2.2 mdFilesW "paperA.pdf" "md" (fun _ => false)⟩

theorem convert_loop_success (mdPath : String) (attempt : Nat → Bool) :
    ∀ (fuel i : Nat) (fs : List String),
      ((convert_loop mdPath attempt fuel i fs).success = true ↔
        ∃ j, j < fuel ∧ attempt (i + j) = true) := by
  intro fuel
  induction fuel with
  | zero => intro i fs; simp [convert_loop]
  | succ n ih =>
      intro i fs
      unfold convert_loop
      by_cases h : attempt i
      · simp only [if_pos h]
        simp only [true_iff, iff_true]
        exact ⟨0, by omega, by simpa using h⟩
      · simp only [if_neg h]
        rw [ih (i + 1) fs]
        constructor
        · rintro ⟨j, hj, ha⟩
          refine ⟨j + 1, by omega, ?_⟩
          have e : i + (j + 1) = i + 1 + j := by omega
          rw [e]; exact ha
        · rintro ⟨j, hj, ha⟩
          cases j with
          | zero => exact absurd (by simpa using ha) h
          | succ j =>
              refine ⟨j, by omega, ?_⟩
              have e : i + 1 + j = i + (j + 1) := by omega
              rw [e]; exact ha

theorem convert_loop_le (mdPath : String) (attempt : Nat → Bool) :
    ∀ (fuel i : Nat) (fs : List String),
      (convert_loop mdPath attempt fuel i fs).attemptsMade ≤ fuel := by
  intro fuel
  induction fuel with
  | zero => intro i fs; simp [convert_loop]
  | succ n ih =>
      intro i fs
      unfold convert_loop
      by_cases h : attempt i
      · simp [if_pos h]
      · simp only [if_neg h]
        have := ih (i + 1) fs
        omega

theorem convert_loop_stops (mdPath : String) (attempt : Nat → Bool) :
    ∀ (k fuel i : Nat) (fs : List String),
      k < fuel → attempt (i + k) = true → (∀ j, j < k → attempt (i + j) = false) →
      (convert_loop mdPath attempt fuel i fs).attemptsMade = k + 1 := by
  intro k
  induction k with
  | zero =>
      intro fuel i fs hk ha _
      obtain ⟨m, rfl⟩ : ∃ m, fuel = m + 1 := ⟨fuel - 1, by omega⟩
      unfold convert_loop
      rw [if_pos (by simpa using ha)]
  | succ k ih =>
      intro fuel i fs hk ha hprev
      obtain ⟨m, rfl⟩ : ∃ m, fuel = m + 1 := ⟨fuel - 1, by omega⟩
      have h0 : attempt i = false := by simpa using hprev 0 (by omega)
      unfold convert_loop
      rw [if_neg (by simp [h0])]
      have hrec := ih m (i + 1) fs (by omega)
        (by have e : i + 1 + k = i + (k + 1) := by omega
            rw [e]; exact ha)
        (fun j hj => by
          have e : i + 1 + j = i + (j + 1) := by omega
          rw [e]; exact hprev (j + 1) (by omega))
      simp [hrec]

/-- C5: document conversion tries the action within a 3-attempt budget and
stops at the first success: it succeeds iff one of the three attempts
succeeds, never makes more than 3 attempts, makes exactly k+1 attempts
when attempt k is the first to succeed, and in particular
fail-fail-succeed is recorded as a success after exactly 3 attempts
(failure is reported only when all 3 attempts fail). -/
theorem C5_convert_retry (files : List String) (pdf_path md_dir : String)
    (attempt : Nat → Bool) :
    ((convert_pdf_to_md files pdf_path md_dir attempt 3).success = true ↔
        ∃ j, j < 3 ∧ attempt j = true) ∧
    (convert_pdf_to_md files pdf_path md_dir attempt 3).attemptsMade ≤ 3 ∧
    (∀ k, k < 3 → attempt k = true → (∀ j, j < k → attempt j = false) →
        (convert_pdf_to_md files pdf_path md_dir attempt 3).attemptsMade = k + 1) ∧
    ((attempt 0 = false ∧ attempt 1 = false ∧ attempt 2 = true) →
        (convert_pdf_to_md files pdf_path md_dir attempt 3).success = true ∧
        (convert_pdf_to_md files pdf_path md_dir attempt 3).attemptsMade = 3) := by
  unfold convert_pdf_to_md
  refine ⟨?_, ?_, ?_, ?_⟩
  · have h := convert_loop_success
      (joinPath md_dir (splitextRoot (baseName pdf_path) ++ ".md")) attempt 3 0 files
    simpa using h
  · exact convert_loop_le _ attempt 3 0 files
  · intro k hk ha hprev
    have h := convert_loop_stops
      (joinPath md_dir (splitextRoot (baseName pdf_path) ++ ".md")) attempt k 3 0 files
      hk (by simpa using ha) (fun j hj => by simpa using hprev j hj)
    simpa using h
  · rintro ⟨h0, h1, h2⟩
    constructor
    · rw [(convert_loop_success _ attempt 3 0 files)]
      exact ⟨2, by omega, by simpa using h2⟩
    · have h := convert_loop_stops
        (joinPath md_dir (splitextRoot (baseName pdf_path) ++ ".md")) attempt 2 3 0 files
        (by omega) (by simpa using h2)
        (fun j hj => by
          interval_cases j
          · simpa using h0
          · simpa using h1)
      simpa using h

/-- Witness for C5: the action fails on attempts 0 and 1 and succeeds on
attempt 2; the conversion is a success after exactly 3 attempts. -/
theorem C5_convert_retry_witness :
    (convert_pdf_to_md [] "a.pdf" "md" (fun i => decide (i = 2)) 3).success = true ∧
    (convert_pdf_to_md [] "a.pdf" "md" (fun i => decide (i = 2)) 3).attemptsMade = 3 :=
  (C5_convert_retry [] "a.pdf" "md" (fun i => decide (i = 2))).2.2.2
    ⟨by decide, by decide, by decide⟩

theorem download_pdf_err (p : PaperInfo) (s : DownloadState)
    (hp : eligiblePaper p) (hf : s.files.contains (targetPath p.title) = false) :
    download_pdf p FetchOutcome.err s
      = ⟨{ s with failure_count := s.failure_count + 1,
                  log := ("Error downloading paper " ++ p.title) :: s.log }, true⟩ := by
  obtain ⟨h1, h2, h3⟩ := hp
  unfold download_pdf
  rw [if_neg (by simp [h1, h2]), if_neg (by simp [h3]), if_neg (by rw [hf]; simp)]

theorem download_batch_err (papers : List PaperInfo) :
    ∀ s : DownloadState,
      (∀ p ∈ papers, eligiblePaper p) →
      (∀ p ∈ papers, s.files.contains (targetPath p.title) = false) →
      (download_batch papers (fun _ => FetchOutcome.err) s).files = s.files ∧
      (download_batch papers (fun _ => FetchOutcome.err) s).success_count
        = s.success_count ∧
      (download_batch papers (fun _ => FetchOutcome.err) s).failure_count
        = s.failure_count + papers.length ∧
      (∀ m ∈ s.log, m ∈ (download_batch papers (fun _ => FetchOutcome.err) s).log) ∧
      (∀ p ∈ papers, ("Error downloading paper " ++ p.title)
        ∈ (download_batch papers (fun _ => FetchOutcome.err) s).log) := by
  induction papers with
  | nil =>
      intro s _ _
      simp [download_batch]
  | cons p ps ih =>
      intro s hel hnf
      have hstep := download_pdf_err p s (hel p (by simp)) (hnf p (by simp))
      have hb : download_batch (p :: ps) (fun _ => FetchOutcome.err) s
          = download_batch ps (fun _ => FetchOutcome.err)
              { s with failure_count := s.failure_count + 1,
                       log := ("Error downloading paper " ++ p.title) :: s.log } := by
        show List.foldl _ _ (p :: ps) = _
        rw [List.foldl_cons]
        rw [show (download_pdf p FetchOutcome.err s).state
            = { s with failure_count := s.failure_count + 1,
                       log := ("Error downloading paper " ++ p.title) :: s.log } by
          rw [hstep]]
        rfl
      rw [hb]
      have hrec := ih { s with failure_count := s.failure_count + 1,
                               log := ("Error downloading paper " ++ p.title) :: s.log }
        (fun q hq => hel q (by simp [hq]))
        (fun q hq => hnf q (by simp [hq]))
      refine ⟨hrec.1, hrec.2.1, ?_, ?_, ?_⟩
      · rw [hrec.2.2.1]
        simp
        omega
      · intro m hm
        exact hrec.2.2.2.1 m (by simp [hm])
      · intro q hq
        rcases List.mem_cons.1 hq with rfl | hq
        · exact hrec.2.2.2.1 _ (by simp)
        · exact hrec.2.2.2.2 q hq

theorem foldl_const {α β : Type} (l : List β) (acc : α) :
    l.foldl (fun a _ => a) acc = acc := by
  induction l generalizing acc with
  | nil => rfl
  | cons b l ih => exact ih acc

/-- C3: a raising per-item action is caught, logged with the item's title
and counted as a failure, never aborting the batch: a download batch in
which every fetch raises ends with an unchanged file system, an unchanged
success count, a failure count increased by the candidate count, and a
logged error line per title; a republish run in which every API call
raises saves a ledger equal to the one it loaded. -/
theorem C3_failure_isolation :
    (∀ (papers : List PaperInfo) (s : DownloadState),
      (∀ p ∈ papers, eligiblePaper p) →
      (∀ p ∈ papers, s.files.contains (targetPath p.title) = false) →
      (download_batch papers (fun _ => FetchOutcome.err) s).files = s.files ∧
      (download_batch papers (fun _ => FetchOutcome.err) s).success_count
        = s.success_count ∧
      (download_batch papers (fun _ => FetchOutcome.err) s).failure_count
        = s.failure_count + papers.length ∧
      (∀ p ∈ papers, ("Error downloading paper " ++ p.title)
        ∈ (download_batch papers (fun _ => FetchOutcome.err) s).log)) ∧
    (∀ (ledger : Option (List String)) (listing : List String)
        (read : String → String) (n : Nat) (saved : List String),
      process_files ledger listing read (fun _ => ApiOutcome.exn) n = some saved →
      saved = load_processed_files ledger) := by
  constructor
  · intro papers s hel hnf
    have h := download_batch_err papers s hel hnf
    exact ⟨h.1, h.2.1, h.2.2.1, h.2.2.2.2⟩
  · intro ledger listing read n saved h
    unfold process_files at h
    by_cases hp : get_priority_files SUMMARIES_FOLDER listing read
        (load_processed_files ledger) n KEYWORDS = []
    · rw [if_pos hp] at h
      exact absurd h (by simp)
    · rw [if_neg hp] at h
      have hfun : (fun (acc : List String) (file_name : String) =>
          if call_api (read (joinPath SUMMARIES_FOLDER file_name)) ApiOutcome.exn
          then acc.insert file_name else acc) = fun acc _ => acc := by
        funext acc f
        simp [call_api]
      rw [hfun, foldl_const] at h
      exact (Option.some.injEq _ _ ▸ h).symm

/-- Witness for C3: one eligible paper whose fetch raises, and a republish
run whose only API call raises. -/
theorem C3_failure_isolation_witness :
    (download_batch [paperW] (fun _ => FetchOutcome.err) s0).failure_count = 1 ∧
    ("Error downloading paper " ++ "T")
      ∈ (download_batch [paperW] (fun _ => FetchOutcome.err) s0).log ∧
    ([] : List String) = load_processed_files (some []) := by
  have h := C3_failure_isolation.1 [paperW] s0 (by decide) (by decide)
  refine ⟨?_, h.2.2.2 paperW (by simp), ?_⟩
  · rw [h.2.2.1]
    rfl
  · exact C3_failure_isolation.2 (some []) ["a.md"] (fun _ => "") 1 [] (by rfl)

theorem mem_foldl_insert_if (g : String → Bool) :
    ∀ (pl acc : List String) (x : String),
      (x ∈ pl.foldl (fun acc f => if g f then acc.insert f else acc) acc) ↔
        (x ∈ acc ∨ (x ∈ pl ∧ g x = true)) := by
  intro pl
  induction pl with
  | nil => simp
  | cons f pl ih =>
      intro acc x
      rw [List.foldl_cons, ih]
      by_cases hgf : g f
      · rw [if_pos hgf]
        simp only [List.mem_insert_iff, List.mem_cons]
        by_cases hx : x = f
        · subst hx; simp [hgf]
        · simp [hx]
      · rw [if_neg hgf]
        simp only [List.mem_cons]
        by_cases hx : x = f
        · subst hx
          simp [hgf]
        · simp [hx]

/-- C2: in a republish run that reaches the save, a name is in the saved
ProcessedSet iff it was already loaded or it was attempted in this run and
its API call returned True; the API call returns True exactly when the
HTTP status is 200 and the JSON body's code is 200, and never on an
exception; the saved set contains the loaded set, so the ledger only
grows. -/
theorem C2_ledger_growth (ledger : Option (List String)) (listing : List String)
    (read : String → String) (resp : String → ApiOutcome) (n : Nat) (saved : List String)
    (h : process_files ledger listing read resp n = some saved) :
    (∀ name, name ∈ saved ↔
        (name ∈ load_processed_files ledger ∨
         (name ∈ get_priority_files SUMMARIES_FOLDER listing read
            (load_processed_files ledger) n KEYWORDS ∧
          call_api (read (joinPath SUMMARIES_FOLDER name)) (resp name) = true))) ∧
    (∀ name ∈ load_processed_files ledger, name ∈ saved) ∧
    (∀ (content : String) (status : Nat) (code : Option Int),
        call_api content (ApiOutcome.resp status code) = true ↔
          (status = 200 ∧ code = some 200)) ∧
    (∀ content : String, call_api content ApiOutcome.exn = false) := by
  unfold process_files at h
  by_cases hp : get_priority_files SUMMARIES_FOLDER listing read
      (load_processed_files ledger) n KEYWORDS = []
  · rw [if_pos hp] at h
    exact absurd h (by simp)
  · rw [if_neg hp] at h
    have hsaved : saved = (get_priority_files SUMMARIES_FOLDER listing read
        (load_processed_files ledger) n KEYWORDS).foldl
          (fun acc file_name =>
            if call_api (read (joinPath SUMMARIES_FOLDER file_name)) (resp file_name)
            then acc.insert file_name else acc)
          (load_processed_files ledger) := by
      exact (Option.some.injEq _ _ ▸ h).symm
    refine ⟨?_, ?_, ?_, ?_⟩
    · intro name
      rw [hsaved]
      exact mem_foldl_insert_if
        (fun f => call_api (read (joinPath SUMMARIES_FOLDER f)) (resp f)) _ _ name
    · intro name hname
      rw [hsaved]
      exact (mem_foldl_insert_if
        (fun f => call_api (read (joinPath SUMMARIES_FOLDER f)) (resp f)) _ _ name).2
        (Or.inl hname)
    · intro content status code
      simp [call_api]
    · intro content
      rfl

/-- Witness for C2: a run over one unprocessed file whose API call returns
HTTP 200 with body code 200; the loaded name stays and the published name
is added. -/
theorem C2_ledger_growth_witness :
    "z.md" ∈ (["a.md", "z.md"] : List String) ∧
    "a.md" ∈ (["a.md", "z.md"] : List String) := by
  have h : process_files (some ["z.md"]) ["a.md", "z.md"] (fun _ => "")
      (fun _ => ApiOutcome.resp 200 (some 200)) 1 = some ["a.md", "z.md"] := rfl
  have c := C2_ledger_growth (some ["z.md"]) ["a.md", "z.md"] (fun _ => "")
    (fun _ => ApiOutcome.resp 200 (some 200)) 1 ["a.md", "z.md"] h
  exact ⟨c.2.1 "z.md" (by decide), (c.1 "a.md").mpr (Or.inr ⟨by decide, rfl⟩)⟩

theorem main_fetch_loop_offsets (pages : Nat → FetchResponse) :
    ∀ (k fuel start : Nat),
      k < fuel →
      (∀ j, j < k → (fetch_papers (pages (start + j * MAX_RESULTS))).length = MAX_RESULTS) →
      (fetch_papers (pages (start + k * MAX_RESULTS))).length < MAX_RESULTS →
      (main_fetch_loop pages fuel start).2
        = (List.range (k + 1)).map (fun j => start + j * MAX_RESULTS) := by
  intro k
  induction k with
  | zero =>
      intro fuel start hf _ hshort
      obtain ⟨m, rfl⟩ : ∃ m, fuel = m + 1 := ⟨fuel - 1, by omega⟩
      have hshort0 : (fetch_papers (pages start)).length < MAX_RESULTS := by
        simpa using hshort
      unfold main_fetch_loop
      by_cases h0 : (fetch_papers (pages start)).length = 0
      · rw [if_pos h0]
        simp [List.range_succ]
      · rw [if_neg h0, if_pos hshort0]
        simp [List.range_succ]
  | succ k ih =>
      intro fuel start hf hfull hshort
      obtain ⟨m, rfl⟩ : ∃ m, fuel = m + 1 := ⟨fuel - 1, by omega⟩
      have h0 : (fetch_papers (pages start)).length = MAX_RESULTS := by
        simpa using hfull 0 (by omega)
      unfold main_fetch_loop
      rw [if_neg (by rw [h0]; simp [MAX_RESULTS]), if_neg (by rw [h0]; simp)]
      have hrec := ih m (start + MAX_RESULTS) (by omega)
        (fun j hj => by
          have e : start + MAX_RESULTS + j * MAX_RESULTS
              = start + (j + 1) * MAX_RESULTS := by ring
          rw [e]; exact hfull (j + 1) (by omega))
        (by
          have e : start + MAX_RESULTS + k * MAX_RESULTS
              = start + (k + 1) * MAX_RESULTS := by ring
          rw [e]; exact hshort)
      simp only [hrec]
      conv_rhs => rw [List.range_succ_eq_map]
      rw [List.map_cons, List.map_map]
      simp only [List.cons.injEq]
      refine ⟨by omega, List.map_congr_left ?_⟩
      intro j _
      show start + MAX_RESULTS + j * MAX_RESULTS = start + (j + 1) * MAX_RESULTS
      ring

/-- C4: catalog enumeration requests offsets 0, MAX_RESULTS,
2·MAX_RESULTS, … and stops exactly at the first page that returns fewer
than MAX_RESULTS items (a failed page request being reported as an empty
page, never raised, and an empty page being such a short page). -/
theorem C4_pagination (pages : Nat → FetchResponse) (k fuel : Nat)
    (hf : k < fuel)
    (hfull : ∀ j, j < k → (fetch_papers (pages (j * MAX_RESULTS))).length = MAX_RESULTS)
    (hshort : (fetch_papers (pages (k * MAX_RESULTS))).length < MAX_RESULTS) :
    (main_fetch_loop pages fuel 0).2 = (List.range (k + 1)).map (fun j => j * MAX_RESULTS) ∧
    fetch_papers FetchResponse.err = [] := by
  constructor
  · have h := main_fetch_loop_offsets pages k fuel 0 hf
      (by simpa using hfull) (by simpa using hshort)
    simpa using h
  · rfl

/-- Witness for C4: one full page at offset 0, a short page at offset
1000; exactly the offsets 0 and 1000 are requested. -/
theorem C4_pagination_witness :
    (main_fetch_loop pagesW 5 0).2 = [0, 1000] := by
  have e0 : pagesW (0 * MAX_RESULTS)
      = FetchResponse.ok (List.replicate 1000 ⟨"t", "c", "e", "n"⟩) := rfl
  have e1 : pagesW (1 * MAX_RESULTS) = FetchResponse.ok [] := rfl
  have h := C4_pagination pagesW 1 5 (by omega)
    (fun j hj => by
      interval_cases j
      rw [e0]
      simp only [fetch_papers, List.length_replicate, MAX_RESULTS])
    (by rw [e1]; simp [fetch_papers, MAX_RESULTS])
  rw [h.1]
  decide

end AutoPapers
